import Mathlib

/-
Verification of the codex Python SDK (`codex_cli` package): a shallow
embedding, in Lean, of the pure logic of
`src/sdk/python/src/codex_cli/client.py` (the experimental-JSON event
aggregator and the result model) and
`src/sdk/python/src/codex_cli/multi_agent.py` (the multi-agent workspace and
the local MCP protocol adapter), together with theorems settling the
specification's claims about them.

Modelling conventions:
- Python JSON values (the output of `json.loads`) are modelled by the
  inductive type `Json`; `dict` insertion-order semantics are modelled by
  association lists in which a later binding for the same key wins, as it
  does for duplicate keys in `json.loads`.
- `json.loads` itself is modelled by `json_loads`, a standard recursive
  descent JSON parser restricted to integer numerals (the SDK and its
  specification exercise only integer counters; floating point is out of
  scope for the embedding).
- Python exceptions are modelled by the `PyErr` type; a function that can
  raise returns either `Except PyErr _` or a pair whose second component is
  an `Option PyErr` when, as in `add_line`, the partially mutated object
  state survives the raise.
- The external `codex` executable is an opaque subprocess boundary (spec
  section 1); where a modelled function calls into it (`CodexCLI.run`), the
  invocation is an explicit oracle argument.
-/

namespace CodexSpec

/-- Model of a decoded Python JSON value as produced by `json.loads`. -/
inductive Json where
  | null : Json
  | bool (b : Bool) : Json
  | num (n : Int) : Json
  | str (s : String) : Json
  | arr (elems : List Json) : Json
  | obj (kvs : List (String × Json)) : Json

/-- Last-binding-wins lookup in an association list, matching the semantics
of a Python `dict` built from a JSON object (duplicate keys: last wins). -/
def getKey : List (String × Json) → String → Option Json
  | [], _ => none
  | (k, v) :: rest, key =>
    match getKey rest key with
    | some v' => some v'
    | none => if k = key then some v else none

/-- Model of Python's `dict.get(key)` restricted to JSON objects: `none`
both when the receiver is not an object and when the key is absent. -/
def Json.get? : Json → String → Option Json
  | .obj kvs, key => getKey kvs key
  | _, _ => none

/-- Whitespace characters stripped by Python's `str.strip()` (the ASCII
subset; the streams under specification are ASCII JSON lines). -/
def isPySpace (c : Char) : Bool :=
  c = ' ' || c = '\t' || c = '\n' || c = '\r' || c = '\x0b' || c = '\x0c'

/-- Model of Python's `str.strip()`: drop leading and trailing whitespace. -/
def pyStrip (s : String) : String :=
  String.mk (((s.data.dropWhile isPySpace).reverse.dropWhile isPySpace).reverse)

/-- JSON insignificant whitespace accepted between tokens by `json.loads`. -/
def isJsonWs (c : Char) : Bool :=
  c = ' ' || c = '\t' || c = '\n' || c = '\r'

/-- Skip insignificant JSON whitespace. -/
def skipWs : List Char → List Char
  | [] => []
  | c :: cs => if isJsonWs c then skipWs cs else c :: cs

/-- Decoding of a two-character JSON string escape (`\"`, `\\`, `\/`, `\b`,
`\f`, `\n`, `\r`, `\t`); `\uXXXX` escapes are outside the embedding. -/
def escChar : Char → Option Char
  | '"' => some '"'
  | '\\' => some '\\'
  | '/' => some '/'
  | 'b' => some '\x08'
  | 'f' => some '\x0c'
  | 'n' => some '\n'
  | 'r' => some '\r'
  | 't' => some '\t'
  | _ => none

/-- Parse the body of a JSON string (the opening quote already consumed),
returning the decoded characters and the remaining input. -/
def parseStringChars : List Char → Option (List Char × List Char)
  | [] => none
  | c :: rest =>
    if c = '"' then some ([], rest)
    else if c = '\\' then
      match rest with
      | [] => none
      | e :: rest2 =>
        match escChar e with
        | none => none
        | some d =>
          match parseStringChars rest2 with
          | none => none
          | some (s, r) => some (d :: s, r)
    else
      match parseStringChars rest with
      | none => none
      | some (s, r) => some (c :: s, r)

/-- Numeric value of a list of decimal digit characters. -/
def digitsToNat (ds : List Char) : Nat :=
  ds.foldl (fun n c => n * 10 + (c.toNat - 48)) 0

/-- Split off the leading run of decimal digits. -/
def takeDigits : List Char → (List Char × List Char)
  | [] => ([], [])
  | c :: rest =>
    if c.isDigit then
      let (ds, r) := takeDigits rest
      (c :: ds, r)
    else ([], c :: rest)

/-- Parse a JSON integer numeral (optional minus sign, then digits). -/
def parseNumber (cs : List Char) : Option (Json × List Char) :=
  match cs with
  | '-' :: rest =>
    match takeDigits rest with
    | ([], _) => none
    | (ds, r) => some (.num (-(digitsToNat ds : Int)), r)
  | _ =>
    match takeDigits cs with
    | ([], _) => none
    | (ds, r) => some (.num (digitsToNat ds : Int), r)

/-- Check that the input starts with the given literal characters and
return the remainder. -/
def expectChars : List Char → List Char → Option (List Char)
  | [], cs => some cs
  | l :: ls, c :: cs => if c = l then expectChars ls cs else none
  | _ :: _, [] => none

mutual

/-- Recursive-descent parser for one JSON value; `fuel` bounds the nesting
depth (any fuel at least the input length suffices). -/
def parseValue : Nat → List Char → Option (Json × List Char)
  | 0, _ => none
  | fuel + 1, cs =>
    match skipWs cs with
    | [] => none
    | c :: rest =>
      if c = '"' then
        match parseStringChars rest with
        | none => none
        | some (s, r) => some (.str (String.mk s), r)
      else if c = '\x7b' then
        match skipWs rest with
        | '\x7d' :: r2 => some (.obj [], r2)
        | r2 => parseMembers fuel r2 []
      else if c = '[' then
        match skipWs rest with
        | ']' :: r2 => some (.arr [], r2)
        | r2 => parseElems fuel r2 []
      else if c = 't' then
        match expectChars ['r', 'u', 'e'] rest with
        | none => none
        | some r => some (.bool true, r)
      else if c = 'f' then
        match expectChars ['a', 'l', 's', 'e'] rest with
        | none => none
        | some r => some (.bool false, r)
      else if c = 'n' then
        match expectChars ['u', 'l', 'l'] rest with
        | none => none
        | some r => some (.null, r)
      else if c = '-' || c.isDigit then parseNumber (c :: rest)
      else none

/-- Parse the members of a JSON object after the opening brace. -/
def parseMembers : Nat → List Char → List (String × Json) →
    Option (Json × List Char)
  | 0, _, _ => none
  | fuel + 1, cs, acc =>
    match skipWs cs with
    | '"' :: rest =>
      match parseStringChars rest with
      | none => none
      | some (k, r1) =>
        match skipWs r1 with
        | ':' :: r2 =>
          match parseValue fuel r2 with
          | none => none
          | some (v, r3) =>
            match skipWs r3 with
            | ',' :: r4 => parseMembers fuel r4 (acc ++ [(String.mk k, v)])
            | '\x7d' :: r4 => some (.obj (acc ++ [(String.mk k, v)]), r4)
            | _ => none
        | _ => none
    | _ => none

/-- Parse the elements of a JSON array after the opening bracket. -/
def parseElems : Nat → List Char → List Json → Option (Json × List Char)
  | 0, _, _ => none
  | fuel + 1, cs, acc =>
    match parseValue fuel cs with
    | none => none
    | some (v, r1) =>
      match skipWs r1 with
      | ',' :: r2 => parseElems fuel r2 (acc ++ [v])
      | ']' :: r2 => some (.arr (acc ++ [v]), r2)
      | _ => none

end

/-- Model of Python's `json.loads` on one line of text: parse exactly one
JSON value with nothing but whitespace around it, `none` on failure. -/
def json_loads (s : String) : Option Json :=
  match parseValue (s.length + 1) s.data with
  | none => none
  | some (j, rest) => if skipWs rest = [] then some j else none

/-- Model of the Python exceptions the embedded code can raise. -/
inductive PyErr where
  | codexRunError (message stderr stdout : String) : PyErr
  | valueError (message : String) : PyErr
  | typeError (message : String) : PyErr
  | attributeError (message : String) : PyErr
  | keyError (message : String) : PyErr

/-- Model of `str(exc)`: the textual description carried by an exception. -/
def pyErrStr : PyErr → String
  | .codexRunError m _ _ => m
  | .valueError m => m
  | .typeError m => m
  | .attributeError m => m
  | .keyError m => "\"" ++ m ++ "\""

/-- Parse a Python base-10 integer literal as accepted by `int(str)`:
surrounding whitespace, an optional sign, then at least one digit. -/
def parseIntLiteral (s : String) : Option Int :=
  let core := (pyStrip s).data
  let signed : Bool × List Char :=
    match core with
    | '-' :: rest => (true, rest)
    | '+' :: rest => (false, rest)
    | rest => (false, rest)
  match signed with
  | (neg, ds) =>
    if ds = [] || !ds.all Char.isDigit then none
    else some (if neg then -(digitsToNat ds : Int) else (digitsToNat ds : Int))

/-- Model of Python's `int(x)` applied to a decoded JSON value: integers
pass through, booleans coerce, strings are parsed as integer literals
(raising `ValueError` otherwise), and the remaining shapes raise
`TypeError`. -/
def pyInt : Json → Except PyErr Int
  | .num n => .ok n
  | .bool b => .ok (if b then 1 else 0)
  | .str s =>
    match parseIntLiteral s with
    | some n => .ok n
    | none => .error (.valueError ("invalid literal for int() with base 10: " ++ s))
  | .null => .error (.typeError "int() argument cannot be NoneType")
  | .arr _ => .error (.typeError "int() argument cannot be a list")
  | .obj _ => .error (.typeError "int() argument cannot be a dict")

/-- Token usage summary (`Usage` in `client.py`): Python integers. -/
structure Usage where
  input_tokens : Int
  cached_input_tokens : Int
  output_tokens : Int

/-- The derived `Usage.total_tokens` property. -/
def Usage.total_tokens (u : Usage) : Int :=
  u.input_tokens + u.cached_input_tokens + u.output_tokens

/-- Structured result of one run (`CodexRunResult` in `client.py`). -/
structure CodexRunResult where
  events : List Json
  assistant_messages : List String
  reasoning : List String
  usage : Option Usage
  errors : List String
  raw_output : String
  stderr : String
  thread_id : Option String

/-- The `last_message` property: `assistant_messages[-1]` when non-empty. -/
def CodexRunResult.last_message (r : CodexRunResult) : Option String :=
  r.assistant_messages.getLast?

/-- The `succeeded` property: `not self.errors` (empty-list truthiness). -/
def CodexRunResult.succeeded (r : CodexRunResult) : Bool :=
  r.errors.isEmpty

/-- State of `_ExperimentalJsonAggregator` in `client.py`. -/
structure ExperimentalJsonAggregator where
  raw_lines : List String
  events : List Json
  assistant_messages : List String
  reasoning : List String
  errors : List String
  thread_id : Option String
  usage : Option Usage

/-- A freshly constructed aggregator (all `field(default_factory=list)` and
`None` defaults). -/
def initAggregator : ExperimentalJsonAggregator :=
  ⟨[], [], [], [], [], none, none⟩

/-- The classification chain of `add_line` on one decoded event (the body
after the two appends, `client.py` lines 108-141). On a non-`dict` event
`event.get("type")` raises `AttributeError`; an `int()` conversion of a
usage counter can raise; every other unexpected shape falls through with
the state unchanged. -/
def classifyEvent (st : ExperimentalJsonAggregator) (event : Json) :
    ExperimentalJsonAggregator × Option PyErr :=
  match event with
  | .obj _ =>
    match event.get? "type" with
    | some (.str t) =>
      if t = "thread.started" then
        match event.get? "thread_id" with
        | some (.str tid) => ({ st with thread_id := some tid }, none)
        | _ => (st, none)
      else if t = "item.completed" then
        match event.get? "item" with
        | some (.obj item) =>
          match getKey item "details" with
          | some (.obj details) =>
            match getKey details "item_type", getKey details "text" with
            | some (.str item_type), some (.str text) =>
              if item_type = "assistant_message" then
                ({ st with assistant_messages := st.assistant_messages ++ [text] }, none)
              else if item_type = "reasoning" then
                ({ st with reasoning := st.reasoning ++ [text] }, none)
              else (st, none)
            | _, _ => (st, none)
          | _ => (st, none)
        | _ => (st, none)
      else if t = "turn.completed" then
        match event.get? "usage" with
        | some (.obj ukvs) =>
          match pyInt ((getKey ukvs "input_tokens").getD (.num 0)) with
          | .error e => (st, some e)
          | .ok input_tokens =>
            match pyInt ((getKey ukvs "cached_input_tokens").getD (.num 0)) with
            | .error e => (st, some e)
            | .ok cached_input_tokens =>
              match pyInt ((getKey ukvs "output_tokens").getD (.num 0)) with
              | .error e => (st, some e)
              | .ok output_tokens =>
                ({ st with
                    usage := some ⟨input_tokens, cached_input_tokens, output_tokens⟩ },
                  none)
        | _ => (st, none)
      else if t = "turn.failed" then
        match event.get? "error" with
        | some (.obj ekvs) =>
          match getKey ekvs "message" with
          | some (.str message) => ({ st with errors := st.errors ++ [message] }, none)
          | _ => (st, none)
        | _ => (st, none)
      else if t = "error" then
        match event.get? "message" with
        | some (.str message) => ({ st with errors := st.errors ++ [message] }, none)
        | _ => (st, none)
      else (st, none)
    | _ => (st, none)
  | _ => (st, some (.attributeError "event value has no attribute get"))

/-- Model of `_ExperimentalJsonAggregator.add_line`: strip the line, ignore
it when empty, decode it as JSON (raising `CodexRunError` carrying the
stripped line in `stdout` on failure), append the line and the event, then
classify. The returned state is the mutated aggregator even when an
exception is raised. -/
def add_line (st : ExperimentalJsonAggregator) (raw_line : String) :
    ExperimentalJsonAggregator × Option PyErr :=
  let line := pyStrip raw_line
  if line = "" then (st, none)
  else
    match json_loads line with
    | none =>
      (st, some (.codexRunError "Failed to decode JSON event emitted by codex exec" "" line))
    | some event =>
      classifyEvent
        { st with raw_lines := st.raw_lines ++ [line], events := st.events ++ [event] }
        event

/-- The consumer loop in `CodexCLI.run`: feed stdout lines to `add_line`
one at a time, stopping at the first raised exception. -/
def feed (st : ExperimentalJsonAggregator) (lines : List String) :
    ExperimentalJsonAggregator × Option PyErr :=
  match lines with
  | [] => (st, none)
  | l :: rest =>
    match add_line st l with
    | (st', none) => feed st' rest
    | (st', some e) => (st', some e)

/-- Model of `_ExperimentalJsonAggregator.as_result`. -/
def as_result (st : ExperimentalJsonAggregator) (stderr : String) : CodexRunResult :=
  { events := st.events
    assistant_messages := st.assistant_messages
    reasoning := st.reasoning
    usage := st.usage
    errors := st.errors
    raw_output := String.intercalate "\n" st.raw_lines
    stderr := stderr
    thread_id := st.thread_id }

/- Spec-side extraction functions: what one event contributes to each
aggregated field, used to state the claims. -/

/-- The text contributed by an `item.completed` event whose nested details
carry the given `item_type` and a string `text`. -/
def itemTextOf (e : Json) (kind : String) : Option String :=
  match e.get? "type" with
  | some (.str t) =>
    if t = "item.completed" then
      match e.get? "item" with
      | some (.obj item) =>
        match getKey item "details" with
        | some (.obj details) =>
          match getKey details "item_type", getKey details "text" with
          | some (.str item_type), some (.str text) =>
            if item_type = kind then some text else none
          | _, _ => none
        | _ => none
      | _ => none
    else none
  | _ => none

/-- The session identifier contributed by a `thread.started` event with a
string `thread_id`. -/
def threadIdOf (e : Json) : Option String :=
  match e.get? "type" with
  | some (.str t) =>
    if t = "thread.started" then
      match e.get? "thread_id" with
      | some (.str tid) => some tid
      | _ => none
    else none
  | _ => none

/-- The error messages contributed by a `turn.failed` event with an
`error.message` string or an `error` event with a `message` string. -/
def errListOf (e : Json) : List String :=
  match e.get? "type" with
  | some (.str t) =>
    if t = "turn.failed" then
      match e.get? "error" with
      | some (.obj ekvs) =>
        match getKey ekvs "message" with
        | some (.str m) => [m]
        | _ => []
      | _ => []
    else if t = "error" then
      match e.get? "message" with
      | some (.str m) => [m]
      | _ => []
    else []
  | _ => []

/-- The usage snapshot contributed by a `turn.completed` event carrying a
usage object whose three counters are `int()`-convertible. -/
def usageOf (e : Json) : Option Usage :=
  match e.get? "type" with
  | some (.str t) =>
    if t = "turn.completed" then
      match e.get? "usage" with
      | some (.obj ukvs) =>
        match pyInt ((getKey ukvs "input_tokens").getD (.num 0)),
              pyInt ((getKey ukvs "cached_input_tokens").getD (.num 0)),
              pyInt ((getKey ukvs "output_tokens").getD (.num 0)) with
        | .ok i, .ok c, .ok o => some ⟨i, c, o⟩
        | _, _, _ => none
      | _ => none
    else none
  | _ => none

/-- Overwrite step for the session identifier: a `thread.started` event
with a string `thread_id` replaces the accumulator. -/
def tidStep (acc : Option String) (e : Json) : Option String :=
  match threadIdOf e with
  | some tid => some tid
  | none => acc

/-- Overwrite step for the usage snapshot: a convertible `turn.completed`
usage object replaces the accumulator. -/
def uStep (acc : Option Usage) (e : Json) : Option Usage :=
  match usageOf e with
  | some u => some u
  | none => acc

/-- The event a stdout line contributes: none for a whitespace-only line,
otherwise the decoded JSON value of the stripped line. -/
def eventOfLine (l : String) : Option Json :=
  if pyStrip l = "" then none else json_loads (pyStrip l)

/-- Whether an event is a JSON object (a Python `dict`). -/
def Json.isObj : Json → Bool
  | .obj _ => true
  | _ => false

/-- Whether an event is a `turn.completed` event carrying a usage object. -/
def hasUsageObj (e : Json) : Bool :=
  match e.get? "type" with
  | some (.str t) =>
    if t = "turn.completed" then
      match e.get? "usage" with
      | some (.obj _) => true
      | _ => false
    else false
  | _ => false

set_option maxHeartbeats 2000000

/-- Full characterization of one classification step: the two append-only
lists are untouched, each aggregated field grows by exactly the event's
contribution, a raised exception leaves the state unchanged, and for an
object event an exception can arise only from the usage-counter
conversions of a `turn.completed` event. -/
theorem classifyEvent_spec (st : ExperimentalJsonAggregator) (e : Json) :
    (classifyEvent st e).1.raw_lines = st.raw_lines ∧
    (classifyEvent st e).1.events = st.events ∧
    (classifyEvent st e).1.assistant_messages
      = st.assistant_messages ++ (itemTextOf e "assistant_message").toList ∧
    (classifyEvent st e).1.reasoning
      = st.reasoning ++ (itemTextOf e "reasoning").toList ∧
    (classifyEvent st e).1.errors = st.errors ++ errListOf e ∧
    (classifyEvent st e).1.thread_id = tidStep st.thread_id e ∧
    ((classifyEvent st e).2 = none → (classifyEvent st e).1.usage = uStep st.usage e) ∧
    ((classifyEvent st e).2 ≠ none → (classifyEvent st e).1 = st) ∧
    ((classifyEvent st e).2 = none → hasUsageObj e = true → (usageOf e).isSome = true) ∧
    ((classifyEvent st e).2 ≠ none → e.isObj = true → hasUsageObj e = true) ∧
    (e.isObj = false →
      (classifyEvent st e).2 = some (.attributeError "event value has no attribute get")) := by
  unfold classifyEvent
  cases e <;>
    simp only [itemTextOf, errListOf, tidStep, threadIdOf, uStep, usageOf, hasUsageObj,
      Json.isObj, Json.get?] <;>
    (repeat' split) <;> simp_all

/-- The empty string is not a JSON document. -/
theorem json_loads_empty : json_loads "" = none := rfl

/-- `add_line` on a whitespace-only line is a no-op. -/
theorem add_line_blank (st : ExperimentalJsonAggregator) (l : String)
    (h : pyStrip l = "") : add_line st l = (st, none) := by
  simp [add_line, h]

/-- `add_line` on a non-empty undecodable line raises `CodexRunError`
carrying the stripped line, leaving the state unchanged. -/
theorem add_line_malformed (st : ExperimentalJsonAggregator) (l : String)
    (hne : pyStrip l ≠ "") (h : json_loads (pyStrip l) = none) :
    add_line st l
      = (st, some (.codexRunError "Failed to decode JSON event emitted by codex exec" ""
          (pyStrip l))) := by
  simp [add_line, hne, h]

/-- `add_line` on a decodable line appends the line and the event, then
runs the classification chain. -/
theorem add_line_event (st : ExperimentalJsonAggregator) (l : String) (j : Json)
    (h : json_loads (pyStrip l) = some j) :
    add_line st l
      = classifyEvent
          { st with raw_lines := st.raw_lines ++ [pyStrip l], events := st.events ++ [j] }
          j := by
  have hne : pyStrip l ≠ "" := by
    intro hc
    rw [hc, json_loads_empty] at h
    exact Option.noConfusion h
  simp [add_line, hne, h]

/-- Unfolding of one successful loop iteration. -/
theorem feed_cons_ok (st st' : ExperimentalJsonAggregator) (l : String)
    (rest : List String) (h : add_line st l = (st', none)) :
    feed st (l :: rest) = feed st' rest := by
  rw [feed, h]

/-- Unfolding of a loop iteration that raises: the stream is abandoned. -/
theorem feed_cons_err (st st' : ExperimentalJsonAggregator) (e : PyErr) (l : String)
    (rest : List String) (h : add_line st l = (st', some e)) :
    feed st (l :: rest) = (st', some e) := by
  rw [feed, h]

/-- Invariant of a fully consumed, exception-free stream: each aggregated
field equals the fold of the per-event contributions over the decoded
events of the stream, and the decoded events are exactly those of the
non-blank lines in order. -/
theorem feed_ok_spec (lines : List String) : ∀ (st : ExperimentalJsonAggregator),
    (feed st lines).2 = none →
    (feed st lines).1.events = st.events ++ lines.filterMap eventOfLine ∧
    (feed st lines).1.raw_lines
      = st.raw_lines ++ lines.filterMap (fun l => if pyStrip l = "" then none else some (pyStrip l)) ∧
    (feed st lines).1.assistant_messages
      = st.assistant_messages
        ++ (lines.filterMap eventOfLine).filterMap (itemTextOf · "assistant_message") ∧
    (feed st lines).1.reasoning
      = st.reasoning ++ (lines.filterMap eventOfLine).filterMap (itemTextOf · "reasoning") ∧
    (feed st lines).1.errors
      = st.errors ++ ((lines.filterMap eventOfLine).map errListOf).flatten ∧
    (feed st lines).1.thread_id = (lines.filterMap eventOfLine).foldl tidStep st.thread_id ∧
    (feed st lines).1.usage = (lines.filterMap eventOfLine).foldl uStep st.usage := by
  induction lines with
  | nil => intro st _; simp [feed]
  | cons l rest ih =>
    intro st h
    by_cases hb : pyStrip l = ""
    · have hev : eventOfLine l = none := by simp [eventOfLine, hb]
      have hal : add_line st l = (st, none) := add_line_blank st l hb
      rw [feed_cons_ok st st l rest hal] at h ⊢
      simpa [hev, hb] using ih st h
    · cases hj : json_loads (pyStrip l) with
      | none =>
        have hal := add_line_malformed st l hb hj
        rw [feed_cons_err _ _ _ _ _ hal] at h
        exact absurd h (by simp)
      | some j =>
        have hev : eventOfLine l = some j := by simp [eventOfLine, hb, hj]
        have hal := add_line_event st l j hj
        rcases hcl : classifyEvent
            { st with raw_lines := st.raw_lines ++ [pyStrip l], events := st.events ++ [j] } j
          with ⟨st2, oe⟩
        have hal2 : add_line st l = (st2, oe) := hal.trans hcl
        cases oe with
        | some e =>
          rw [feed_cons_err _ _ _ _ _ hal2] at h
          exact absurd h (by simp)
        | none =>
          rw [feed_cons_ok _ _ _ _ hal2] at h ⊢
          have hspec := classifyEvent_spec
            { st with raw_lines := st.raw_lines ++ [pyStrip l], events := st.events ++ [j] } j
          rw [hcl] at hspec
          simp only at hspec
          obtain ⟨hraw, hevs, hasst, hreas, herrs, htid, husage, -, -, -, -⟩ := hspec
          obtain ⟨ih1, ih2, ih3, ih4, ih5, ih6, ih7⟩ := ih st2 h
          refine ⟨?_, ?_, ?_, ?_, ?_, ?_, ?_⟩
          · rw [ih1, hevs]; simp [hev]
          · rw [ih2, hraw]; simp [hb]
          · rw [ih3, hasst]
            cases hopt : itemTextOf j "assistant_message" <;>
              simp [hev, List.filterMap_cons, hopt]
          · rw [ih4, hreas]
            cases hopt : itemTextOf j "reasoning" <;>
              simp [hev, List.filterMap_cons, hopt]
          · rw [ih5, herrs]; simp [hev]
          · rw [ih6, htid]; simp [hev]
          · rw [ih7, husage trivial]; simp [hev]

/-- A stream line no event or field of which survives misclassified: the
usage-object conversion succeeded for every decoded `turn.completed` event
of an exception-free stream. -/
theorem feed_ok_usage_conv (lines : List String) : ∀ (st : ExperimentalJsonAggregator),
    (feed st lines).2 = none →
    ∀ e ∈ lines.filterMap eventOfLine, hasUsageObj e = true → (usageOf e).isSome = true := by
  induction lines with
  | nil => simp
  | cons l rest ih =>
    intro st h
    by_cases hb : pyStrip l = ""
    · have hal : add_line st l = (st, none) := add_line_blank st l hb
      rw [feed_cons_ok st st l rest hal] at h
      have hev : eventOfLine l = none := by simp [eventOfLine, hb]
      simpa [hev] using ih st h
    · cases hj : json_loads (pyStrip l) with
      | none =>
        have hal := add_line_malformed st l hb hj
        rw [feed_cons_err _ _ _ _ _ hal] at h
        exact absurd h (by simp)
      | some j =>
        have hev : eventOfLine l = some j := by simp [eventOfLine, hb, hj]
        have hal := add_line_event st l j hj
        rcases hcl : classifyEvent
            { st with raw_lines := st.raw_lines ++ [pyStrip l], events := st.events ++ [j] } j
          with ⟨st2, oe⟩
        have hal2 : add_line st l = (st2, oe) := hal.trans hcl
        cases oe with
        | some e =>
          rw [feed_cons_err _ _ _ _ _ hal2] at h
          exact absurd h (by simp)
        | none =>
          rw [feed_cons_ok _ _ _ _ hal2] at h
          intro e he hus
          have hspec := classifyEvent_spec
            { st with raw_lines := st.raw_lines ++ [pyStrip l], events := st.events ++ [j] } j
          rw [hcl] at hspec
          simp only at hspec
          rcases (by simpa [hev] using he : e = j ∨ e ∈ rest.filterMap eventOfLine) with rfl | hmem
          · exact hspec.2.2.2.2.2.2.2.2.1 trivial hus
          · exact ih st2 h e hmem hus

/- Concrete event-stream lines used by the counterexamples and witnesses. -/

/-- A `thread.started` line carrying thread id "abc". -/
def tsLineA : String := "\x7b\"type\":\"thread.started\",\"thread_id\":\"abc\"\x7d"

/-- A second `thread.started` line carrying thread id "def". -/
def tsLineB : String := "\x7b\"type\":\"thread.started\",\"thread_id\":\"def\"\x7d"

/-- A `turn.failed` line carrying error message "failure". -/
def turnFailedLine : String :=
  "\x7b\"type\":\"turn.failed\",\"error\":\x7b\"message\":\"failure\"\x7d\x7d"

/-- An `error` line carrying message "secondary". -/
def errorLine : String := "\x7b\"type\":\"error\",\"message\":\"secondary\"\x7d"

/-- An `item.completed` line carrying the assistant message "Hello". -/
def assistLine : String :=
  "\x7b\"type\":\"item.completed\",\"item\":\x7b\"details\":\x7b\"item_type\":\"assistant_message\",\"text\":\"Hello\"\x7d\x7d\x7d"

/-- An `item.completed` line carrying the reasoning text "Thinking". -/
def reasonLine : String :=
  "\x7b\"type\":\"item.completed\",\"item\":\x7b\"details\":\x7b\"item_type\":\"reasoning\",\"text\":\"Thinking\"\x7d\x7d\x7d"

/-- A `turn.completed` line with usage counters 7, 2, 5. -/
def usageLineA : String :=
  "\x7b\"type\":\"turn.completed\",\"usage\":\x7b\"input_tokens\":7,\"cached_input_tokens\":2,\"output_tokens\":5\x7d\x7d"

/-- A second `turn.completed` line with usage counters 1, 0, 3. -/
def usageLineB : String :=
  "\x7b\"type\":\"turn.completed\",\"usage\":\x7b\"input_tokens\":1,\"cached_input_tokens\":0,\"output_tokens\":3\x7d\x7d"

/-- C1, counterexample: after a `thread.started` event with thread_id
"abc" followed by another `thread.started` event with thread_id "def" the
aggregated session identifier is "def", not "abc" — the code overwrites on
every occurrence, so the claim that the first occurrence wins and later
occurrences are ignored is false. -/
theorem thread_id_not_first_occurrence :
    (feed initAggregator [tsLineA, tsLineB]).2 = none ∧
    (feed initAggregator [tsLineA, tsLineB]).1.thread_id = some "def" ∧
    (some "def" : Option String) ≠ some "abc" :=
  ⟨rfl, rfl, by decide⟩

/-- C1, amended: for every exception-free stream, the session identifier
of the result is the thread_id of the last `thread.started` event carrying
a string thread_id (each occurrence overwrites the previous one), and is
absent when no such event occurred. -/
theorem thread_id_last_occurrence_wins (lines : List String)
    (h : (feed initAggregator lines).2 = none) :
    (feed initAggregator lines).1.thread_id
      = (lines.filterMap eventOfLine).foldl tidStep none := by
  simpa [initAggregator] using (feed_ok_spec lines initAggregator h).2.2.2.2.2.1

/-- C1, witness: the amended theorem applied to the two-line stream. -/
theorem thread_id_last_occurrence_wins_witness :
    (feed initAggregator [tsLineA, tsLineB]).2 = none ∧
    (feed initAggregator [tsLineA, tsLineB]).1.thread_id
      = ([tsLineA, tsLineB].filterMap eventOfLine).foldl tidStep none :=
  ⟨rfl, thread_id_last_occurrence_wins [tsLineA, tsLineB] rfl⟩

/-- C3: for every exception-free stream, the final assistant-message list
is exactly the string texts of the `item.completed` events whose nested
item details carry item_type "assistant_message", in arrival order, and
the final reasoning list is exactly the texts of the events with item_type
"reasoning", in arrival order. -/
theorem item_texts_in_arrival_order (lines : List String)
    (h : (feed initAggregator lines).2 = none) :
    (feed initAggregator lines).1.assistant_messages
      = (lines.filterMap eventOfLine).filterMap (itemTextOf · "assistant_message") ∧
    (feed initAggregator lines).1.reasoning
      = (lines.filterMap eventOfLine).filterMap (itemTextOf · "reasoning") := by
  have hs := feed_ok_spec lines initAggregator h
  exact ⟨by simpa [initAggregator] using hs.2.2.1,
    by simpa [initAggregator] using hs.2.2.2.1⟩

/-- C3, witness: the theorem applied to a concrete stream with one
assistant message and one reasoning item, whose lists evaluate to
`["Hello"]` and `["Thinking"]`. -/
theorem item_texts_in_arrival_order_witness :
    (feed initAggregator [assistLine, reasonLine]).2 = none ∧
    ((feed initAggregator [assistLine, reasonLine]).1.assistant_messages
        = ([assistLine, reasonLine].filterMap eventOfLine).filterMap
            (itemTextOf · "assistant_message") ∧
      (feed initAggregator [assistLine, reasonLine]).1.reasoning
        = ([assistLine, reasonLine].filterMap eventOfLine).filterMap
            (itemTextOf · "reasoning")) ∧
    (feed initAggregator [assistLine, reasonLine]).1.assistant_messages = ["Hello"] ∧
    (feed initAggregator [assistLine, reasonLine]).1.reasoning = ["Thinking"] :=
  ⟨rfl, item_texts_in_arrival_order [assistLine, reasonLine] rfl, rfl, rfl⟩

/-- C6, counterexample: on the line `" { "` (whitespace around an
undecodable fragment) `add_line` raises a `CodexRunError` whose `stdout`
payload is the stripped line `"{"`, which differs from the raw offending
line — so the payload does not surface the raw line verbatim. -/
theorem malformed_line_payload_is_stripped :
    add_line initAggregator " \x7b "
      = (initAggregator,
          some (.codexRunError "Failed to decode JSON event emitted by codex exec" "" "\x7b")) ∧
    ("\x7b" : String) ≠ " \x7b " :=
  ⟨rfl, by decide⟩

/-- C6, amended: an empty or whitespace-only line is ignored with no state
change, and a non-empty line that does not decode as JSON raises a
`CodexRunError` (aborting aggregation) whose payload surfaces the
offending line stripped of surrounding whitespace, with the state
unchanged. -/
theorem add_line_blank_or_malformed (st : ExperimentalJsonAggregator) (raw : String) :
    (pyStrip raw = "" → add_line st raw = (st, none)) ∧
    (pyStrip raw ≠ "" → json_loads (pyStrip raw) = none →
      add_line st raw
        = (st, some (.codexRunError "Failed to decode JSON event emitted by codex exec" ""
            (pyStrip raw)))) :=
  ⟨add_line_blank st raw, add_line_malformed st raw⟩

/-- C6, witness: the amended theorem applied to a whitespace-only line and
to the non-JSON line `" x "`. -/
theorem add_line_blank_or_malformed_witness :
    add_line initAggregator "  " = (initAggregator, none) ∧
    add_line initAggregator " x "
      = (initAggregator,
          some (.codexRunError "Failed to decode JSON event emitted by codex exec" "" "x")) :=
  ⟨(add_line_blank_or_malformed initAggregator "  ").1 rfl,
   (add_line_blank_or_malformed initAggregator " x ").2 (by decide) rfl⟩

/-- C8: for every exception-free stream, the final usage snapshot is the
left fold of the overwrite step over the decoded events — i.e. the
counters of the last `turn.completed` event carrying a usage object, and
absent when no such event occurred — and every decoded `turn.completed`
event carrying a usage object did convert successfully. -/
theorem usage_last_overwrite (lines : List String)
    (h : (feed initAggregator lines).2 = none) :
    (feed initAggregator lines).1.usage
      = (lines.filterMap eventOfLine).foldl uStep none ∧
    ∀ e ∈ lines.filterMap eventOfLine, hasUsageObj e = true → (usageOf e).isSome = true := by
  refine ⟨?_, feed_ok_usage_conv lines initAggregator h⟩
  simpa [initAggregator] using (feed_ok_spec lines initAggregator h).2.2.2.2.2.2

/-- C8, witness: the theorem applied to a stream with two `turn.completed`
events; the snapshot evaluates to the counters of the second one. -/
theorem usage_last_overwrite_witness :
    (feed initAggregator [usageLineA, usageLineB]).2 = none ∧
    ((feed initAggregator [usageLineA, usageLineB]).1.usage
        = ([usageLineA, usageLineB].filterMap eventOfLine).foldl uStep none ∧
      ∀ e ∈ [usageLineA, usageLineB].filterMap eventOfLine,
        hasUsageObj e = true → (usageOf e).isSome = true) ∧
    (feed initAggregator [usageLineA, usageLineB]).1.usage = some ⟨1, 0, 3⟩ :=
  ⟨rfl, usage_last_overwrite [usageLineA, usageLineB] rfl, rfl⟩

/-- C9: feeding the `turn.failed` event with message "failure" and then
the `error` event with message "secondary" yields a result whose error
list is exactly `["failure", "secondary"]` and whose `succeeded` flag is
false; and in general `succeeded` is true exactly when the error list is
empty. -/
theorem errors_collected_and_succeeded_iff :
    ((as_result (feed initAggregator [turnFailedLine, errorLine]).1 "").errors
        = ["failure", "secondary"] ∧
      (as_result (feed initAggregator [turnFailedLine, errorLine]).1 "").succeeded = false) ∧
    ∀ r : CodexRunResult, r.succeeded = true ↔ r.errors = [] := by
  refine ⟨⟨rfl, rfl⟩, ?_⟩
  intro r
  simp [CodexRunResult.succeeded, List.isEmpty_iff]

/-- C10, counterexample: the line `"3"` decodes to a JSON value, yet
`add_line` raises (`event.get("type")` on a non-`dict` raises
`AttributeError`) — so `add_line` does not succeed on every line that
decodes to a JSON value. -/
theorem add_line_raises_on_nonobject :
    json_loads (pyStrip "3") = some (.num 3) ∧
    (add_line initAggregator "3").2
      = some (.attributeError "event value has no attribute get") :=
  ⟨rfl, rfl⟩

/-- C10, amended: for every line that decodes to a JSON value, `add_line`
appends exactly one event and one (stripped) raw line; when it raises, all
other aggregator fields are left unchanged; for an object event it can
raise only on a `turn.completed` event carrying a usage object (a
non-`int()`-convertible counter); and a non-object event always raises
`AttributeError`. -/
theorem add_line_decoded_behaviour (st : ExperimentalJsonAggregator) (raw : String)
    (j : Json) (h : json_loads (pyStrip raw) = some j) :
    (add_line st raw).1.events = st.events ++ [j] ∧
    (add_line st raw).1.raw_lines = st.raw_lines ++ [pyStrip raw] ∧
    ((add_line st raw).2 ≠ none →
      (add_line st raw).1.assistant_messages = st.assistant_messages ∧
      (add_line st raw).1.reasoning = st.reasoning ∧
      (add_line st raw).1.errors = st.errors ∧
      (add_line st raw).1.thread_id = st.thread_id ∧
      (add_line st raw).1.usage = st.usage) ∧
    ((add_line st raw).2 ≠ none → j.isObj = true → hasUsageObj j = true) ∧
    (j.isObj = false →
      (add_line st raw).2 = some (.attributeError "event value has no attribute get")) := by
  rw [add_line_event st raw j h]
  obtain ⟨hraw, hevs, -, -, -, -, -, herrstate, -, hobj, hnonobj⟩ :=
    classifyEvent_spec
      { st with raw_lines := st.raw_lines ++ [pyStrip raw], events := st.events ++ [j] } j
  refine ⟨by rw [hevs], by rw [hraw], ?_, hobj, hnonobj⟩
  intro hne
  rw [herrstate hne]
  exact ⟨rfl, rfl, rfl, rfl, rfl⟩

/-- C10, witness: the amended theorem applied to the line `"3"`. -/
theorem add_line_decoded_behaviour_witness :
    json_loads (pyStrip "3") = some (.num 3) ∧
    ((add_line initAggregator "3").1.events = initAggregator.events ++ [Json.num 3] ∧
      (add_line initAggregator "3").1.raw_lines = initAggregator.raw_lines ++ [pyStrip "3"] ∧
      ((add_line initAggregator "3").2 ≠ none →
        (add_line initAggregator "3").1.assistant_messages
            = initAggregator.assistant_messages ∧
        (add_line initAggregator "3").1.reasoning = initAggregator.reasoning ∧
        (add_line initAggregator "3").1.errors = initAggregator.errors ∧
        (add_line initAggregator "3").1.thread_id = initAggregator.thread_id ∧
        (add_line initAggregator "3").1.usage = initAggregator.usage) ∧
      ((add_line initAggregator "3").2 ≠ none →
        (Json.num 3).isObj = true → hasUsageObj (Json.num 3) = true) ∧
      ((Json.num 3).isObj = false →
        (add_line initAggregator "3").2
          = some (.attributeError "event value has no attribute get"))) :=
  ⟨rfl, add_line_decoded_behaviour initAggregator "3" (.num 3) rfl⟩

/- Multi-agent workspace (`multi_agent.py`). Filesystem paths are modelled
as lists of components below the filesystem root; the workspace root is
assumed already resolved (as `__init__` does with
`Path(project_root).expanduser().resolve()`). -/

/-- A path argument as accepted by `pathlib.Path(...)`: an absoluteness
flag plus components, which may include `".."` (single-dot components are
already dropped by `PurePath` construction but are tolerated here). -/
structure PyPath where
  absolute : Bool
  components : List String

/-- `pathlib` joining `root / rel`: an absolute right operand replaces the
left operand entirely. -/
def joinPath (root : List String) (rel : PyPath) : List String :=
  if rel.absolute then rel.components else root ++ rel.components

/-- The component normalization performed by `Path.resolve()` (symlinks do
not exist in the model): `"."` vanishes and `".."` removes the previous
component, staying put at the filesystem root. -/
def normalizePath (comps : List String) : List String :=
  comps.foldl
    (fun acc c =>
      if c = "." then acc
      else if c = ".." then acc.dropLast
      else acc ++ [c])
    []

/-- The resolution `(self._project_root / Path(relative_path)).resolve()`
performed by `register_agent`. -/
def resolveCandidate (root : List String) (rel : PyPath) : List String :=
  normalizePath (joinPath root rel)

/-- The `candidate.parents` sequence of `pathlib`: every proper ancestor,
i.e. every proper component-list prefix down to the filesystem root. -/
def pathParents (p : List String) : List (List String) :=
  (List.range p.length).map (fun k => p.take k)

/-- Record of one Codex invocation issued by an agent (`AgentRun`);
timestamps (`datetime.now(tz=utc)`) are modelled as naturals. -/
structure AgentRun where
  prompt : String
  result : CodexRunResult
  timestamp : Nat

/-- State of one agent (`AgentSession`): name, working directory and run
history. The per-agent lock serializes `run`, so the model treats each
invocation as one atomic step. -/
structure AgentSession where
  name : String
  working_directory : List String
  history : List AgentRun

/-- State of a `MultiAgentWorkspace`: the resolved project root and the
agent registry in insertion order (Python `dict` preserves it). -/
structure MultiAgentWorkspace where
  project_root : List String
  agents : List (String × AgentSession)

/-- Model of `MultiAgentWorkspace.register_agent`: reject a duplicate
name, resolve the optional relative path against the project root and
reject a resolution that leaves the root, then create and register the
agent. (`create_missing` directory creation is a filesystem effect with no
bearing on the registry and is outside the model.) -/
def register_agent (w : MultiAgentWorkspace) (name : String)
    (relative_path : Option PyPath) :
    Except PyErr (MultiAgentWorkspace × AgentSession) :=
  if (w.agents.map Prod.fst).contains name then
    .error (.valueError ("Agent '" ++ name ++ "' already registered"))
  else
    match relative_path with
    | none =>
      let agent : AgentSession := ⟨name, w.project_root, []⟩
      .ok ({ w with agents := w.agents ++ [(name, agent)] }, agent)
    | some rel =>
      if (resolveCandidate w.project_root rel
            :: pathParents (resolveCandidate w.project_root rel)).contains
          w.project_root then
        let agent : AgentSession := ⟨name, resolveCandidate w.project_root rel, []⟩
        .ok ({ w with agents := w.agents ++ [(name, agent)] }, agent)
      else .error (.valueError "Agent working directory must be within the project root")

/-- Model of `MultiAgentWorkspace.get_agent`: dictionary lookup, raising
`KeyError` for an unknown name. -/
def get_agent (w : MultiAgentWorkspace) (name : String) : Except PyErr AgentSession :=
  match w.agents.find? (fun p => p.1 == name) with
  | some p => .ok p.2
  | none => .error (.keyError ("Unknown agent '" ++ name ++ "'"))

/-- Model of `AgentSession.run`: the outcome of the underlying
`CodexCLI.run` invocation (an external subprocess, here the explicit
`invoke` argument) either propagates as a raised error with the history
untouched, or is returned with an `AgentRun` record appended. -/
def AgentSession.run (sess : AgentSession) (prompt : String)
    (invoke : Except PyErr CodexRunResult) (now : Nat) :
    Except PyErr CodexRunResult × AgentSession :=
  match invoke with
  | .error e => (.error e, sess)
  | .ok result =>
    (.ok result, { sess with history := sess.history ++ [⟨prompt, result, now⟩] })

/-- The comparison key of `history`'s `sorted(runs, key=...timestamp)`. -/
def tsLE (a b : AgentRun) : Bool :=
  decide (a.timestamp ≤ b.timestamp)

/-- Model of `MultiAgentWorkspace.history`: with a name, that agent's own
history (raising for an unknown name); without, every agent's history
concatenated in registry order and stably sorted by timestamp (Python's
`sorted` is a stable merge sort). -/
def history (w : MultiAgentWorkspace) (agent_name : Option String) :
    Except PyErr (List AgentRun) :=
  match agent_name with
  | some n =>
    match get_agent w n with
    | .error e => .error e
    | .ok a => .ok a.history
  | none =>
    .ok (((w.agents.map (fun p => p.2.history)).flatten).mergeSort tsLE)

/- Local MCP protocol adapter (`LocalProjectMCPServer` in
`multi_agent.py`). -/

/-- The single exposed tool name (`LocalProjectMCPServer.TOOL_NAME`). -/
def TOOL_NAME : String := "multiagent.run"

/-- Python truthiness of a decoded JSON value, as used by
`params.get("arguments") or {}`. -/
def pyTruthy : Json → Bool
  | .null => false
  | .bool b => b
  | .num n => n != 0
  | .str s => s != ""
  | .arr l => !l.isEmpty
  | .obj kvs => !kvs.isEmpty

/-- Rendering of a path for the injected `cwd` keyword argument. -/
def pathToString (p : List String) : String :=
  "/" ++ String.intercalate "/" p

/-- Model of `str()` on a decoded JSON value as interpolated into the
unsupported-method message (container renderings abbreviated; no claim
depends on them). -/
def pyStrOfJson : Json → String
  | .null => "None"
  | .bool b => if b then "True" else "False"
  | .num n => toString n
  | .str s => s
  | .arr _ => "[...]"
  | .obj _ => "\x7b...\x7d"

/-- The `f"Unsupported method '{method}'"` message. -/
def unsupportedMsg (m : Option Json) : String :=
  "Unsupported method '" ++ (match m with | none => "None" | some j => pyStrOfJson j) ++ "'"

/-- State of the adapter: the workspace it wraps, its server name, and the
external `codex` invocation as an oracle (prompt and keyword arguments to
`CodexCLI.run`, which shells out to the opaque executable). -/
structure LocalProjectMCPServer where
  workspace : MultiAgentWorkspace
  server_name : String
  codexRun : String → List (String × Json) → Except PyErr CodexRunResult

/-- Model of `LocalProjectMCPServer.initialize`: static metadata. -/
def initResponse (srv : LocalProjectMCPServer) : Json :=
  .obj
    [("protocolVersion", .str "2025-06-18"),
     ("serverInfo", .obj [("name", .str srv.server_name), ("version", .str "0.1")]),
     ("capabilities", .obj [("tools", .obj [("listChanged", .bool false)])])]

/-- Model of `LocalProjectMCPServer.list_tools`: the single tool entry. -/
def toolsListResponse : Json :=
  .obj
    [("tools",
      .arr
        [.obj
          [("name", .str TOOL_NAME),
           ("description", .str "Run a prompt on behalf of a registered agent."),
           ("inputSchema",
            .obj
              [("type", .str "object"),
               ("required", .arr [.str "agent", .str "prompt"]),
               ("properties",
                .obj
                  [("agent", .obj [("type", .str "string")]),
                   ("prompt", .obj [("type", .str "string")]),
                   ("config", .obj [("type", .str "object")])])])]])]

/-- Model of `MultiAgentWorkspace.run` as invoked by the adapter: agent
lookup (raising `KeyError` for an unknown agent), injection of the agent's
working directory as the default `cwd`, then the external invocation. The
history append performed on success is characterized by
`AgentSession.run` and does not affect the returned value. -/
def wsRun (w : MultiAgentWorkspace)
    (codexRun : String → List (String × Json) → Except PyErr CodexRunResult)
    (agent_name prompt : String) (kwargs : List (String × Json)) :
    Except PyErr CodexRunResult :=
  match get_agent w agent_name with
  | .error e => .error e
  | .ok a =>
    let forwarded :=
      if (kwargs.map Prod.fst).contains "cwd" then kwargs
      else kwargs ++ [("cwd", Json.str (pathToString a.working_directory))]
    codexRun prompt forwarded

/-- Model of `LocalProjectMCPServer.call_tool`: validate the tool name and
argument shapes, run the workspace invocation, and translate the result
into the MCP payload (primary text = last assistant message or the empty
string, `isError` flag, and error/usage metadata when present). -/
def call_tool (srv : LocalProjectMCPServer) (name : String)
    (arguments : List (String × Json)) : Except PyErr Json :=
  if name ≠ TOOL_NAME then .error (.valueError ("Unknown tool '" ++ name ++ "'"))
  else
    match getKey arguments "agent", getKey arguments "prompt" with
    | some (.str agent_name), some (.str prompt) =>
      let run_kwargs : List (String × Json) :=
        match getKey arguments "config" with
        | some (.obj kvs) => kvs
        | _ => []
      match wsRun srv.workspace srv.codexRun agent_name prompt run_kwargs with
      | .error e => .error e
      | .ok result =>
        let content_text := result.last_message.getD ""
        let metadata1 : List (String × Json) :=
          if result.errors.isEmpty then []
          else [("errors", .arr (result.errors.map Json.str))]
        let metadata2 : List (String × Json) :=
          match result.usage with
          | some u =>
            metadata1 ++
              [("usage",
                .obj
                  [("input", .num u.input_tokens),
                   ("cached", .num u.cached_input_tokens),
                   ("output", .num u.output_tokens)])]
          | none => metadata1
        .ok (.obj
          ([("content", .arr [.obj [("type", .str "text"), ("text", .str content_text)]]),
            ("isError", .bool (!result.errors.isEmpty))]
            ++ (if metadata2.isEmpty then [] else [("metadata", .obj metadata2)])))
    | _, _ => .error (.valueError "Tool arguments must include 'agent' and 'prompt' strings")

/-- The dispatch performed inside the `try` block of `handle_request`:
route on the method string, validating `tools/call` parameters; every
failure is a raised exception captured by the `Except`. -/
def dispatchRequest (srv : LocalProjectMCPServer) (request : List (String × Json)) :
    Except PyErr Json :=
  match getKey request "method" with
  | some (.str m) =>
    if m = "initialize" then .ok (initResponse srv)
    else if m = "tools/list" then .ok toolsListResponse
    else if m = "tools/call" then
      match getKey request "params" with
      | some (.obj params) =>
        let argsVal :=
          match getKey params "arguments" with
          | none => Json.obj []
          | some v => if pyTruthy v then v else Json.obj []
        match getKey params "name" with
        | some (.str name) =>
          match argsVal with
          | .obj arguments => call_tool srv name arguments
          | _ => .error (.valueError "Tool arguments must be a mapping")
        | _ => .error (.valueError "Tool name must be a string")
      | _ => .error (.valueError "tools/call requires params")
    else .error (.valueError (unsupportedMsg (some (.str m))))
  | mth => .error (.valueError (unsupportedMsg mth))

/-- The error payload of a JSON-RPC error response. -/
structure RpcError where
  code : Int
  message : String

/-- A JSON-RPC response as built by `handle_request`: the `result` field
is present exactly when `result` is `some`, the `error` field exactly when
`error` is `some`. -/
structure RpcResponse where
  jsonrpc : String
  id : Json
  result : Option Json
  error : Option RpcError

/-- Model of `LocalProjectMCPServer.handle_request`: run the dispatch and
convert any raised exception into a structured error response with the
fixed code `-32000` and the exception's textual description. -/
def handle_request (srv : LocalProjectMCPServer) (request : List (String × Json)) :
    RpcResponse :=
  let request_id := (getKey request "id").getD Json.null
  match dispatchRequest srv request with
  | .ok result => ⟨"2.0", request_id, some result, none⟩
  | .error exc => ⟨"2.0", request_id, none, some ⟨-32000, pyErrStr exc⟩⟩

/-- The timestamp comparison is transitive. -/
theorem tsLE_trans : ∀ a b c : AgentRun, tsLE a b → tsLE b c → tsLE a c := by
  intro a b c hab hbc
  simp only [tsLE, decide_eq_true_eq] at *
  omega

/-- The timestamp comparison is total. -/
theorem tsLE_total : ∀ a b : AgentRun, tsLE a b || tsLE b a := by
  intro a b
  simp only [tsLE, Bool.or_eq_true, decide_eq_true_eq]
  exact Nat.le_total _ _

/-- Stability of the modelled `sorted`: the subsequence of runs sharing
any one timestamp is untouched by the sort. -/
theorem mergeSort_filter_timestamp (l : List AgentRun) (t : Nat) :
    (l.mergeSort tsLE).filter (fun r => r.timestamp == t)
      = l.filter (fun r => r.timestamp == t) := by
  have hpw : (l.filter (fun r => r.timestamp == t)).Pairwise (fun a b => tsLE a b) := by
    apply List.pairwise_of_forall_mem_list
    intro a ha b hb
    have ha' := (List.mem_filter.mp ha).2
    have hb' := (List.mem_filter.mp hb).2
    simp only [beq_iff_eq] at ha' hb'
    simp [tsLE, ha', hb']
  have hsub2 : List.Sublist (l.filter (fun r => r.timestamp == t)) (l.mergeSort tsLE) :=
    List.sublist_mergeSort tsLE_trans tsLE_total hpw (List.filter_sublist l)
  have hfself :
      (l.filter (fun r => r.timestamp == t)).filter (fun r => r.timestamp == t)
        = l.filter (fun r => r.timestamp == t) := by
    rw [List.filter_eq_self]
    intro a ha
    exact (List.mem_filter.mp ha).2
  have hsub3 :
      List.Sublist (l.filter (fun r => r.timestamp == t))
        ((l.mergeSort tsLE).filter (fun r => r.timestamp == t)) := by
    have := hsub2.filter (fun r => r.timestamp == t)
    rwa [hfself] at this
  have hlen :
      ((l.mergeSort tsLE).filter (fun r => r.timestamp == t)).length
        = (l.filter (fun r => r.timestamp == t)).length :=
    ((List.mergeSort_perm l tsLE).filter (fun r => r.timestamp == t)).length_eq
  exact (hsub3.eq_of_length hlen.symm).symm

/-- C2: `history()` without an agent name returns every agent's runs
merged and sorted by timestamp ascending; the sort is stable — the runs
sharing any given timestamp keep exactly the order of the concatenated
per-agent histories, so ties are broken by per-agent append order — and
`history(name)` returns exactly that agent's runs in append order. -/
theorem history_merged_sorted_stable (w : MultiAgentWorkspace) :
    (∀ hs, history w none = Except.ok hs →
      hs.Perm ((w.agents.map (fun p => p.2.history)).flatten) ∧
      hs.Pairwise (fun a b => a.timestamp ≤ b.timestamp) ∧
      ∀ t : Nat,
        hs.filter (fun r => r.timestamp == t)
          = ((w.agents.map (fun p => p.2.history)).flatten).filter
              (fun r => r.timestamp == t)) ∧
    (∀ n a, get_agent w n = Except.ok a → history w (some n) = Except.ok a.history) := by
  constructor
  · intro hs hok
    have hhs : hs = ((w.agents.map (fun p => p.2.history)).flatten).mergeSort tsLE := by
      simpa [history] using hok.symm
    subst hhs
    refine ⟨List.mergeSort_perm _ tsLE, ?_, fun t => mergeSort_filter_timestamp _ t⟩
    have := List.sorted_mergeSort tsLE_trans tsLE_total
      ((w.agents.map (fun p => p.2.history)).flatten)
    exact this.imp (by simp [tsLE])
  · intro n a hget
    simp [history, hget]

/- Concrete workspace used by the witnesses. -/

/-- An empty run result for the demonstration runs. -/
def demoResult : CodexRunResult := ⟨[], [], [], none, [], "", "", none⟩

/-- First demonstration run, timestamp 5. -/
def demoRunA : AgentRun := ⟨"first", demoResult, 5⟩

/-- Second demonstration run, also timestamp 5 (a tie). -/
def demoRunB : AgentRun := ⟨"second", demoResult, 5⟩

/-- Third demonstration run, timestamp 9. -/
def demoRunC : AgentRun := ⟨"third", demoResult, 9⟩

/-- Demonstration agent "alice" with two recorded runs. -/
def demoAlice : AgentSession := ⟨"alice", ["home", "proj"], [demoRunA, demoRunB]⟩

/-- Demonstration agent "bob" with one recorded run. -/
def demoBob : AgentSession := ⟨"bob", ["home", "proj", "bob"], [demoRunC]⟩

/-- Demonstration workspace holding both agents. -/
def demoWorkspace : MultiAgentWorkspace :=
  ⟨["home", "proj"], [("alice", demoAlice), ("bob", demoBob)]⟩

/-- C2, witness: the theorem applied to the demonstration workspace, with
the tie at timestamp 5 kept in append order. -/
theorem history_merged_sorted_stable_witness :
    history demoWorkspace (some "alice") = Except.ok demoAlice.history ∧
    ([demoRunA, demoRunB, demoRunC].Perm
        ((demoWorkspace.agents.map (fun p => p.2.history)).flatten) ∧
      [demoRunA, demoRunB, demoRunC].Pairwise (fun a b => a.timestamp ≤ b.timestamp) ∧
      [demoRunA, demoRunB, demoRunC].filter (fun r => r.timestamp == 5)
        = ((demoWorkspace.agents.map (fun p => p.2.history)).flatten).filter
            (fun r => r.timestamp == 5)) := by
  have heq : history demoWorkspace none = Except.ok [demoRunA, demoRunB, demoRunC] := by
    show Except.ok
        (((demoWorkspace.agents.map (fun p => p.2.history)).flatten).mergeSort tsLE) = _
    rw [show (demoWorkspace.agents.map (fun p => p.2.history)).flatten
        = [demoRunA, demoRunB, demoRunC] from rfl]
    rw [List.mergeSort_of_sorted (by decide)]
  have h := history_merged_sorted_stable demoWorkspace
  have h1 := h.1 [demoRunA, demoRunB, demoRunC] heq
  exact ⟨h.2 "alice" demoAlice rfl, h1.1, h1.2.1, h1.2.2 5⟩

/-- C4: a raised invocation error propagates to the caller of the agent's
`run` with the history untouched; a history record is appended exactly
when the invocation returns successfully. -/
theorem agent_run_appends_only_on_success (sess : AgentSession) (prompt : String)
    (now : Nat) :
    (∀ e : PyErr, AgentSession.run sess prompt (.error e) now = (.error e, sess)) ∧
    (∀ r : CodexRunResult,
      AgentSession.run sess prompt (.ok r) now
        = (.ok r, { sess with history := sess.history ++ [⟨prompt, r, now⟩] })) ∧
    (∀ invoke : Except PyErr CodexRunResult,
      ((AgentSession.run sess prompt invoke now).2.history = sess.history ↔
        ∃ e, invoke = Except.error e)) := by
  refine ⟨fun e => rfl, fun r => rfl, fun invoke => ?_⟩
  cases invoke with
  | error e => simp [AgentSession.run]
  | ok r => simp [AgentSession.run]

/-- C5: `handle_request` is total — every dispatch failure (unsupported
method, malformed params, unknown tool or agent, or an exception from the
invocation) becomes a structured response with an `error` field carrying
the fixed code -32000 and the exception's textual description and no
`result` field, while a successful dispatch yields a `result` field and no
`error` field; an unsupported method always takes the failure branch with
the corresponding message. -/
theorem handle_request_never_propagates (srv : LocalProjectMCPServer)
    (request : List (String × Json)) :
    ((∃ exc, dispatchRequest srv request = .error exc ∧
        handle_request srv request
          = ⟨"2.0", (getKey request "id").getD Json.null, none,
              some ⟨-32000, pyErrStr exc⟩⟩) ∨
      (∃ res, dispatchRequest srv request = .ok res ∧
        handle_request srv request
          = ⟨"2.0", (getKey request "id").getD Json.null, some res, none⟩)) ∧
    (∀ m, getKey request "method" = some (.str m) →
      m ≠ "initialize" → m ≠ "tools/list" → m ≠ "tools/call" →
      dispatchRequest srv request
        = .error (.valueError ("Unsupported method '" ++ m ++ "'"))) := by
  constructor
  · cases hd : dispatchRequest srv request with
    | error exc => exact .inl ⟨exc, rfl, by simp [handle_request, hd]⟩
    | ok res => exact .inr ⟨res, rfl, by simp [handle_request, hd]⟩
  · intro m hm h1 h2 h3
    simp [dispatchRequest, hm, h1, h2, h3, unsupportedMsg, pyStrOfJson]

/-- The demonstration adapter: the demonstration workspace with an oracle
that reports the external binary unavailable. -/
def demoServer : LocalProjectMCPServer :=
  ⟨demoWorkspace, "codex-local", fun _ _ => Except.error (.valueError "offline")⟩

/-- C5, witness: an unsupported method on the demonstration adapter
produces the structured error response and no result. -/
theorem handle_request_never_propagates_witness :
    dispatchRequest demoServer [("method", Json.str "bogus")]
      = Except.error (.valueError ("Unsupported method '" ++ "bogus" ++ "'")) ∧
    handle_request demoServer [("method", Json.str "bogus")]
      = ⟨"2.0", Json.null, none, some ⟨-32000, "Unsupported method 'bogus'"⟩⟩ := by
  have h := handle_request_never_propagates demoServer [("method", Json.str "bogus")]
  exact ⟨h.2 "bogus" rfl (by decide) (by decide) (by decide), rfl⟩

/-- Membership of the root in `(candidate, *candidate.parents)` is
exactly the component-prefix relation "the candidate is the root or a
descendant of it". -/
theorem mem_self_parents_iff (root cand : List String) :
    (cand :: pathParents cand).contains root = true ↔ ∃ t, cand = root ++ t := by
  have hmemiff :
      (cand :: pathParents cand).contains root = true
        ↔ root ∈ cand :: pathParents cand := by
    simp [List.contains_iff_exists_mem_beq, beq_iff_eq]
  rw [hmemiff]
  constructor
  · intro hmem
    rcases List.mem_cons.mp hmem with rfl | hp
    · exact ⟨[], by simp⟩
    · simp only [pathParents, List.mem_map, List.mem_range] at hp
      obtain ⟨k, -, rfl⟩ := hp
      exact ⟨cand.drop k, (List.take_append_drop k cand).symm⟩
  · rintro ⟨t, rfl⟩
    cases t with
    | nil => simp
    | cons x xs =>
      apply List.mem_cons_of_mem
      simp only [pathParents, List.mem_map, List.mem_range]
      exact ⟨root.length, by simp, by simp⟩

/-- Unfolding of `register_agent` on a duplicate name. -/
theorem register_agent_conflict (w : MultiAgentWorkspace) (name : String)
    (rel : Option PyPath) (hn : (w.agents.map Prod.fst).contains name = true) :
    register_agent w name rel
      = .error (.valueError ("Agent '" ++ name ++ "' already registered")) := by
  unfold register_agent
  rw [if_pos hn]

/-- Unfolding of `register_agent` with a fresh name and no relative path:
the agent operates from the project root. -/
theorem register_agent_root (w : MultiAgentWorkspace) (name : String)
    (hn : (w.agents.map Prod.fst).contains name = false) :
    register_agent w name none
      = .ok ({ w with agents := w.agents ++ [(name, ⟨name, w.project_root, []⟩)] },
          ⟨name, w.project_root, []⟩) := by
  unfold register_agent
  rw [if_neg (by rw [hn]; exact Bool.false_ne_true)]

/-- Unfolding of `register_agent` with a fresh name and an in-root
relative path: the agent operates from the resolved candidate. -/
theorem register_agent_path_ok (w : MultiAgentWorkspace) (name : String) (p : PyPath)
    (hn : (w.agents.map Prod.fst).contains name = false)
    (hc : ((resolveCandidate w.project_root p
        :: pathParents (resolveCandidate w.project_root p)).contains w.project_root)
      = true) :
    register_agent w name (some p)
      = .ok ({ w with agents := w.agents
            ++ [(name, ⟨name, resolveCandidate w.project_root p, []⟩)] },
          ⟨name, resolveCandidate w.project_root p, []⟩) := by
  unfold register_agent
  rw [if_neg (by rw [hn]; exact Bool.false_ne_true)]
  dsimp only
  rw [if_pos hc]

/-- Unfolding of `register_agent` with a fresh name and a relative path
resolving outside the root. -/
theorem register_agent_path_escape (w : MultiAgentWorkspace) (name : String) (p : PyPath)
    (hn : (w.agents.map Prod.fst).contains name = false)
    (hc : ((resolveCandidate w.project_root p
        :: pathParents (resolveCandidate w.project_root p)).contains w.project_root)
      = false) :
    register_agent w name (some p)
      = .error (.valueError "Agent working directory must be within the project root") := by
  unfold register_agent
  rw [if_neg (by rw [hn]; exact Bool.false_ne_true)]
  dsimp only
  rw [if_neg (by rw [hc]; exact Bool.false_ne_true)]

/-- C7: `register_agent` fails exactly when the name is already taken or
the resolved working directory lies outside the project root; otherwise
it registers and returns a fresh agent whose working directory is the
root (no path supplied) or the resolved candidate — in every success case
the root or a descendant of it. -/
theorem register_agent_spec (w : MultiAgentWorkspace) (name : String)
    (rel : Option PyPath) :
    ((∃ e, register_agent w name rel = .error e) ↔
      ((w.agents.map Prod.fst).contains name = true ∨
        ∃ p, rel = some p ∧
          ¬∃ t, resolveCandidate w.project_root p = w.project_root ++ t)) ∧
    (∀ w' a, register_agent w name rel = .ok (w', a) →
      a.working_directory
          = (match rel with
             | none => w.project_root
             | some p => resolveCandidate w.project_root p) ∧
      (∃ t, a.working_directory = w.project_root ++ t) ∧
      w'.agents = w.agents ++ [(name, a)]) := by
  by_cases hn : (w.agents.map Prod.fst).contains name = true
  · have he := register_agent_conflict w name rel hn
    constructor
    · rw [he]
      exact iff_of_true ⟨_, rfl⟩ (.inl hn)
    · intro w' a hok
      rw [he] at hok
      exact absurd hok (by simp)
  · have hn' : (w.agents.map Prod.fst).contains name = false :=
      Bool.not_eq_true _ ▸ (by simpa using hn)
    cases rel with
    | none =>
      have he := register_agent_root w name hn'
      constructor
      · rw [he]
        refine iff_of_false (by simp) ?_
        rintro (hl | ⟨p, hp, -⟩)
        · exact hn hl
        · exact Option.noConfusion hp
      · intro w' a hok
        rw [he] at hok
        obtain ⟨h1, h2⟩ := Prod.mk.inj (Except.ok.inj hok)
        subst h1
        subst h2
        exact ⟨rfl, ⟨[], by simp⟩, rfl⟩
    | some p =>
      by_cases hc :
          ((resolveCandidate w.project_root p
              :: pathParents (resolveCandidate w.project_root p)).contains
            w.project_root) = true
      · have hpre := (mem_self_parents_iff _ _).mp hc
        have he := register_agent_path_ok w name p hn' hc
        constructor
        · rw [he]
          refine iff_of_false (by simp) ?_
          rintro (hl | ⟨p', hp', hout⟩)
          · exact hn hl
          · exact hout (Option.some.inj hp' ▸ hpre)
        · intro w' a hok
          rw [he] at hok
          obtain ⟨h1, h2⟩ := Prod.mk.inj (Except.ok.inj hok)
          subst h1
          subst h2
          exact ⟨rfl, hpre, rfl⟩
      · have hc' := Bool.not_eq_true _ ▸ (by simpa using hc :
          ¬((resolveCandidate w.project_root p
              :: pathParents (resolveCandidate w.project_root p)).contains
            w.project_root = true))
        have hnpre : ¬∃ t, resolveCandidate w.project_root p = w.project_root ++ t :=
          fun hx => hc ((mem_self_parents_iff _ _).mpr hx)
        have he := register_agent_path_escape w name p hn' (by simpa using hc)
        constructor
        · rw [he]
          exact iff_of_true ⟨_, rfl⟩ (.inr ⟨p, rfl, hnpre⟩)
        · intro w' a hok
          rw [he] at hok
          exact absurd hok (by simp)

/-- The demonstration workspace with no agents registered yet. -/
def demoEmptyWorkspace : MultiAgentWorkspace := ⟨["home", "proj"], []⟩

/-- C7, witness: registering "alice" under relative path `sub` on the
empty demonstration workspace succeeds with working directory
`/home/proj/sub`, a descendant of the root. -/
theorem register_agent_spec_witness :
    register_agent demoEmptyWorkspace "alice" (some ⟨false, ["sub"]⟩)
        = Except.ok
            ({ demoEmptyWorkspace with
                agents := demoEmptyWorkspace.agents
                  ++ [("alice", ⟨"alice", ["home", "proj", "sub"], []⟩)] },
              ⟨"alice", ["home", "proj", "sub"], []⟩) ∧
    ((⟨"alice", ["home", "proj", "sub"], []⟩ : AgentSession).working_directory
        = resolveCandidate demoEmptyWorkspace.project_root ⟨false, ["sub"]⟩ ∧
      (∃ t, (⟨"alice", ["home", "proj", "sub"], []⟩ : AgentSession).working_directory
          = demoEmptyWorkspace.project_root ++ t) ∧
      ({ demoEmptyWorkspace with
          agents := demoEmptyWorkspace.agents
            ++ [("alice", ⟨"alice", ["home", "proj", "sub"], []⟩)] }
          : MultiAgentWorkspace).agents
        = demoEmptyWorkspace.agents
            ++ [("alice", ⟨"alice", ["home", "proj", "sub"], []⟩)]) := by
  have h := (register_agent_spec demoEmptyWorkspace "alice" (some ⟨false, ["sub"]⟩)).2
    { demoEmptyWorkspace with
        agents := demoEmptyWorkspace.agents
          ++ [("alice", ⟨"alice", ["home", "proj", "sub"], []⟩)] }
    ⟨"alice", ["home", "proj", "sub"], []⟩ rfl
  exact ⟨rfl, h⟩

end CodexSpec
